import Mathlib

/-!
Verification development for the gofloaters PDF/JSON converter.

The repository exposes two pipelines: an extractor (`POST /pdfToJson` and
`POST /api/pdf-to-json`) that walks a PDF's pages and emits a JSON list of
positioned text and image elements, and a reconstructor (`POST /jsonToPdf`
and `POST /api/json-to-pdf`) that rebuilds a PDF from that JSON.  The
definitions below are shallow embeddings of the relevant handler code from
`src/unnamed/part_000` and `src/app.js`; geometry is modelled over `ℝ`
(extraction side, where `Math.hypot` appears) and `ℚ` (reconstruction side,
which is pure rational arithmetic).
-/

/-- A 2D affine transform `[a, b, c, d, e, f]` as delivered by pdf.js in
`item.transform` and in the `setTransform` operator arguments:
linear part `[a b; c d]`, translation `(e, f)`. -/
structure Mat where
  a : ℝ
  b : ℝ
  c : ℝ
  d : ℝ
  e : ℝ
  f : ℝ

/-- Model of `Math.hypot x y = sqrt (x^2 + y^2)`. -/
noncomputable def hypot (x y : ℝ) : ℝ := Real.sqrt (x ^ 2 + y ^ 2)

/-- `const scaleX = Math.hypot(ctm[0], ctm[1])` (src/unnamed/part_000, image branch). -/
noncomputable def scaleX (m : Mat) : ℝ := hypot m.a m.b

/-- `const scaleY = Math.hypot(ctm[2], ctm[3])` (src/unnamed/part_000, image branch). -/
noncomputable def scaleY (m : Mat) : ℝ := hypot m.c m.d

/-- The placement an extracted image element receives: its `x`, `y`,
`width`, `height` fields in the intermediate JSON. -/
structure Placement where
  x : ℝ
  y : ℝ
  width : ℝ
  height : ℝ

/-- Embedding of the image placement computation in `app.post('/pdfToJson')`
(src/unnamed/part_000).  `w`, `h` are the image's natural pixel dimensions
(`img.width`, `img.height`), `H` is `viewport.height`.  With no ctm found the
code keeps the defaults `x = 0, y = 0, width = img.width, height = img.height`;
with a ctm it computes `x = ctm[4]`, `y = viewport.height - (ctm[5] + height)`
(using the natural height, which is only reassigned afterwards), and scales the
natural dimensions by `hypot` of the matrix columns. -/
noncomputable def placeImage (w h H : ℝ) : Option Mat → Placement
  | none => ⟨0, 0, w, h⟩
  | some m => ⟨m.e, H - (m.f + h), w * scaleX m, h * scaleY m⟩

/-- One entry of a page's operator trace (`opList.fnArray` together with its
argument).  The code treats `paintImageXObject`, `paintImageXObjectRepeat` and
`paintJpegXObject` alike, so a single image-paint constructor suffices;
`other` stands for every further operator kind. -/
inductive PdfOp where
  | setTransform (m : Mat)
  | paintImage (name : String)
  | other

/-- Embedding of the backward ctm search in `app.post('/pdfToJson')`
(src/unnamed/part_000): `for (let k = j - 1; k >= 0; k--) if (ops[k] ===
setTransform) { ctm = args[k][0]; break }`.  `findCtm ops j` inspects indices
`j-1, j-2, ..., 0` and returns the first set-transform argument found. -/
def findCtm (ops : List PdfOp) : Nat → Option Mat
  | 0 => none
  | j + 1 =>
    match ops[j]? with
    | some (PdfOp.setTransform m) => some m
    | some (PdfOp.paintImage _) => findCtm ops j
    | some PdfOp.other => findCtm ops j
    | none => findCtm ops j

/-- The full placement pipeline for an image painted at operator index `j`:
backward ctm search followed by the placement computation. -/
noncomputable def extractImageAt (ops : List PdfOp) (j : Nat) (w h H : ℝ) : Placement :=
  placeImage w h H (findCtm ops j)

/-- A pdf.js text-content item: literal string, raw transform, natural
width/height, and font name. -/
structure TextItem where
  str : String
  transform : Mat
  width : ℝ
  height : ℝ
  fontName : String

/-- A text element of the intermediate JSON. -/
structure TextElement where
  text : String
  x : ℝ
  y : ℝ
  fontSize : ℝ
  width : ℝ
  height : ℝ
  fontName : String

open Classical in
/-- Embedding of the text-element map in `app.post('/pdfToJson')`
(src/unnamed/part_000): `x: transform[4]`, `y: transform[5]` (stored as-is),
`fontSize: item.height || Math.hypot(transform[0], transform[1])` (the `||`
falls through exactly when `item.height` is `0`). -/
noncomputable def extractTextElement (item : TextItem) : TextElement :=
  { text := item.str
    x := item.transform.e
    y := item.transform.f
    fontSize := if item.height = 0 then hypot item.transform.a item.transform.b else item.height
    width := item.width
    height := item.height
    fontName := item.fontName }

/-- The `y` stored for a text element by the `/api/pdf-to-json` variant
(`extractPageElements` in src/unnamed/part_000):
`y: viewport.height - item.transform[5]`. -/
noncomputable def apiTextY (H : ℝ) (item : TextItem) : ℝ := H - item.transform.f

/-- The conversion into the canonical top-left-origin frame, as performed by
the extraction code where it converts at all: `viewport.height - rawY`
(text in `extractPageElements`; for images the code applies it to
`ctm[5] + height`). -/
noncomputable def toCanonicalY (rawY H : ℝ) : ℝ := H - rawY

/-- The conversion out of the canonical frame performed by the reconstructor
(`app.post('/jsonToPdf')`): `pageData.height - element.y - element.height`,
with `elemHeight = 0` for text (`pageData.height - element.y`). -/
noncomputable def fromCanonicalY (canonicalY H elemHeight : ℝ) : ℝ := H - canonicalY - elemHeight

/-- An element of the reconstructor's JSON input, as the duck-typed handlers
read it: a `type` discriminator string plus the fields the drawing code
accesses.  `fontSize := none` models an absent field, `some 0` a present but
falsy one; `src := none` models an absent/falsy `src`. -/
structure RElement where
  type : String
  text : String
  x : ℚ
  y : ℚ
  width : ℚ
  height : ℚ
  fontSize : Option ℚ
  src : Option String
deriving DecidableEq

/-- The comparator passed to `Array.prototype.sort` in `app.post('/jsonToPdf')`
(src/unnamed/part_000):
`if (a.type === 'image' && b.type === 'text') return -1;
 if (a.type === 'text' && b.type === 'image') return 1; return 0`. -/
def cmpElems (a b : RElement) : Int :=
  if a.type = "image" ∧ b.type = "text" then -1
  else if a.type = "text" ∧ b.type = "image" then 1
  else 0

/-- Stable insertion of `x` (an element occurring before every element of the
list in the original order) into an already-sorted list: `x` is placed before
the first `y` with `cmp x y ≤ 0`, as ECMAScript's stable sort requires. -/
def sortInsert {α : Type} (cmp : α → α → Int) (x : α) : List α → List α
  | [] => [x]
  | y :: ys => if cmp x y ≤ 0 then x :: y :: ys else y :: sortInsert cmp x ys

/-- Model of `Array.prototype.sort(cmp)`: the ECMAScript specification
requires the result to be a stable, comparator-consistent reordering, which
for a consistent comparator is produced by stable insertion sort. -/
def jsArraySort {α : Type} (cmp : α → α → Int) : List α → List α
  | [] => []
  | x :: xs => sortInsert cmp x (jsArraySort cmp xs)

/-- `const sortedElements = [...pageData.elements].sort((a, b) => ...)`
(src/unnamed/part_000, `app.post('/jsonToPdf')`). -/
def sortedElements (els : List RElement) : List RElement := jsArraySort cmpElems els

/-- The text size used when drawing: `size: element.fontSize || 12`
(src/unnamed/part_000 and src/app.js).  A missing or zero (falsy) `fontSize`
falls back to `12`. -/
def textSize (fontSize : Option ℚ) : ℚ :=
  match fontSize with
  | some s => if s = 0 then 12 else s
  | none => 12

/-- A drawing call issued against the pdf-lib page: `page.drawText` or
`page.drawImage`.  `α` is the collaborator's embedded-image object type. -/
inductive DrawOp (α : Type) where
  | text (s : String) (x y size : ℚ)
  | image (x y w h : ℚ) (img : α)
deriving DecidableEq

/-- Embedding of the element branch of the reconstruction loop in
`app.post('/jsonToPdf')` (src/unnamed/part_000).  `embed` abstracts the
composite of base64 decoding and `pdfDoc.embedPng`/`embedJpg`: it returns
`none` when that collaborator call throws, in which case the surrounding
`try/catch` skips the element.  Text is drawn at
`(element.x, pageData.height - element.y)`, images at
`(element.x, pageData.height - element.y - element.height)` with the declared
width/height.  Elements of any other `type` fall through both branches. -/
def drawElement {α : Type} (embed : String → Option α) (H : ℚ) (e : RElement) :
    Option (DrawOp α) :=
  if e.type = "text" then
    some (DrawOp.text e.text e.x (H - e.y) (textSize e.fontSize))
  else if e.type = "image" then
    match e.src with
    | some s =>
      match embed s with
      | some img => some (DrawOp.image e.x (H - e.y - e.height) e.width e.height img)
      | none => none
    | none => none
  else none

/-- One page of the reconstructor's JSON input. -/
structure RPage where
  width : ℚ
  height : ℚ
  elements : List RElement
deriving DecidableEq

/-- A reconstructed page: its dimensions plus the drawing calls issued on it. -/
structure DrawPage (α : Type) where
  width : ℚ
  height : ℚ
  ops : List (DrawOp α)
deriving DecidableEq

/-- Reconstruction of one page (src/unnamed/part_000, `app.post('/jsonToPdf')`):
`pdfDoc.addPage([pageData.width, pageData.height])`, then the element loop over
the image-first sorted list, skipping elements whose placement fails. -/
def renderPage {α : Type} (embed : String → Option α) (p : RPage) : DrawPage α :=
  ⟨p.width, p.height, (sortedElements p.elements).filterMap (drawElement embed p.height)⟩

/-- The shape of `req.body.pages` seen by a reconstruct handler.  `absent`
models a body without the field (`undefined`), `nullVal` a `null`/falsy value,
`nonArray` a truthy non-array (and non-iterable) value, `array` a proper
array. -/
inductive PagesField where
  | absent
  | nullVal
  | nonArray
  | array (pages : List RPage)

/-- Outcome of the part_000 `/jsonToPdf` handler: a 400 response from the
early validation, or the success envelope `{ success: true, pdf, filename,
size }` (the PDF bytes abstracted as the list of rendered pages). -/
inductive JsonToPdfResult (α : Type) where
  | badRequest (msg : String)
  | ok (success : Bool) (pdfPages : List (DrawPage α)) (filename : String)

/-- Embedding of `app.post('/jsonToPdf')` from src/unnamed/part_000:
`if (!pages || !Array.isArray(pages)) return res.status(400).json(...)`,
otherwise every page is rendered and the handler answers
`res.json({ success: true, ... })`. -/
def jsonToPdf {α : Type} (embed : String → Option α) (body : PagesField) : JsonToPdfResult α :=
  match body with
  | PagesField.array pages =>
      JsonToPdfResult.ok true (pages.map (renderPage embed)) "document.pdf"
  | _ => JsonToPdfResult.badRequest "Invalid JSON format. Expected \x7b pages: [...] \x7d"

/-- Whether a `/jsonToPdf` response reports success. -/
def isSuccess {α : Type} : JsonToPdfResult α → Bool
  | JsonToPdfResult.ok s _ _ => s
  | _ => false

/-- Outcome of the `app.js` `/jsonToPdf` handler, which performs no input
validation: on an array it proceeds into document construction, on anything
else `for (const pageData of pages)` throws and the async handler rejects
without sending a response. -/
inductive AppJsOutcome where
  | proceeds (pages : List RPage)
  | badRequest (msg : String)
  | thrown (msg : String)

/-- Embedding of the control flow of `app.post('/jsonToPdf')` in src/app.js:
`const { pages } = req.body` followed directly by `for (const pageData of
pages)` with no validation and no try/catch. -/
def appJs_jsonToPdf : PagesField → AppJsOutcome
  | PagesField.array pages => AppJsOutcome.proceeds pages
  | _ => AppJsOutcome.thrown "TypeError: pages is not iterable"

/-- Response of an extract handler, with the staged upload's fate recorded. -/
inductive ExtractResp (α : Type) where
  | ok (payload : α)
  | serverError (msg : String) (details : String)
  | unhandledRejection (details : String)

/-- Outcome of an extract handler together with whether the transient on-disk
upload file was removed before the handler finished. -/
structure ExtractOutcome (α : Type) where
  resp : ExtractResp α
  fileRemoved : Bool

/-- Embedding of the file lifecycle of the disk-staging `/pdfToJson` handler
in src/unnamed/part_000 (and of `/api/pdf-to-json`): the whole body is wrapped
in `try { ...; fs.unlinkSync(pdfPath); res.json(...) } catch (error) {
if (fs.existsSync(pdfPath)) fs.unlinkSync(pdfPath); res.status(500)... }`, so
the temp file is removed on the success path and on every failure path.
`parse` abstracts the fallible pdf.js work on the uploaded bytes. -/
def pdfToJson_part000 {α : Type} (parse : Except String α) : ExtractOutcome α :=
  match parse with
  | Except.ok v => ⟨ExtractResp.ok v, true⟩
  | Except.error e => ⟨ExtractResp.serverError "Failed to process PDF" e, true⟩

/-- Embedding of the file lifecycle of `app.post('/pdfToJson')` in src/app.js:
no try/catch; `fs.unlinkSync(pdfPath)` is reached only after all pdf.js work
succeeds, so a parse failure rejects the handler with the file still on
disk. -/
def pdfToJson_appjs {α : Type} (parse : Except String α) : ExtractOutcome α :=
  match parse with
  | Except.ok v => ⟨ExtractResp.ok v, true⟩
  | Except.error e => ⟨ExtractResp.unhandledRejection e, false⟩

/-- Character-list model of `String.prototype.startsWith`: does the pattern
(second argument) occur at the head of the first argument? -/
def strStartsWith : List Char → List Char → Bool
  | _, [] => true
  | [], _ :: _ => false
  | c :: cs, p :: ps => (c == p) && strStartsWith cs ps

/-- Character-list model of `String.prototype.includes`: does the pattern
occur contiguously anywhere in the first argument? -/
def strIncludes : List Char → List Char → Bool
  | [], pat => pat.isEmpty
  | c :: tail, pat => strStartsWith (c :: tail) pat || strIncludes tail pat

/-- The two pdf-lib embed calls the `/jsonToPdf` format branch can choose. -/
inductive EmbedKind where
  | png
  | jpg
deriving DecidableEq

/-- Embedding of the format branch of `app.post('/jsonToPdf')`
(src/unnamed/part_000): `if (element.src.includes('image/png')) embedPng
else if (element.src.includes('image/jpeg')) embedJpg else embedPng`. -/
def chooseEmbed (src : List Char) : EmbedKind :=
  if strIncludes src "image/png".toList then EmbedKind.png
  else if strIncludes src "image/jpeg".toList then EmbedKind.jpg
  else EmbedKind.png

/-- A data URI `data:image/<label>;base64,<payload>` as produced by
`canvas.toDataURL` and consumed by the reconstructor. -/
def dataURI (label payload : List Char) : List Char :=
  "data:image/".toList ++ label ++ ";base64,".toList ++ payload

/-- The raster formats `sharp(imageBytes).metadata().format` can report that
the `/api/json-to-pdf` branch distinguishes. -/
inductive SharpFormat where
  | png
  | jpeg
deriving DecidableEq

/-- Modelled from the spec: the sharp collaborator is not part of src/, and
the spec describes its role as re-deriving the true image format from magic
bytes.  PNG bytes begin `0x89 'P' 'N' 'G'`, JPEG bytes begin `0xFF 0xD8 0xFF`;
`none` covers every other input, including bytes sharp cannot parse (on which
the `await sharp(...).metadata()` call throws). -/
def sharpFormat (bytes : List Nat) : Option SharpFormat :=
  if bytes.take 4 = [137, 80, 78, 71] then some SharpFormat.png
  else if bytes.take 3 = [255, 216, 255] then some SharpFormat.jpeg
  else none

/-- The three embed calls the `/api/json-to-pdf` branch can choose. -/
inductive ApiEmbed where
  | jpg
  | png
  | generic
deriving DecidableEq

/-- Embedding of the format branch of `app.post('/api/json-to-pdf')`
(src/unnamed/part_000): `try { const metadata = await sharp(imageBytes)
.metadata(); if (metadata.format === 'jpeg') embedJpg else if (metadata.format
=== 'png') embedPng else embedImage } catch { embedImage }`. -/
def chooseEmbed_api (bytes : List Nat) : ApiEmbed :=
  match sharpFormat bytes with
  | some SharpFormat.jpeg => ApiEmbed.jpg
  | some SharpFormat.png => ApiEmbed.png
  | none => ApiEmbed.generic

/-- A concrete text element (paint-order and skipping examples). -/
def elemA : RElement := ⟨"text", "A", 0, 0, 0, 0, none, none⟩

/-- A concrete image element carrying a data URI. -/
def elemB : RElement := ⟨"image", "", 0, 0, 0, 0, none, some "data:image/png;base64,AAAA"⟩

/-- A second concrete text element. -/
def elemC : RElement := ⟨"text", "C", 0, 0, 0, 0, none, none⟩

/-- An embed collaborator that fails on every input (corrupt image bytes). -/
def embedNoneU : String → Option Unit := fun _ => none

/-- If no index below `j` holds a set-transform operator, the backward search
comes up empty. -/
theorem findCtm_eq_none (ops : List PdfOp) (j : Nat)
    (h : ∀ k m, k < j → ops[k]? ≠ some (PdfOp.setTransform m)) :
    findCtm ops j = none := by
  induction j with
  | zero => rfl
  | succ n ih =>
    have hrec : findCtm ops n = none :=
      ih (fun k m hk => h k m (Nat.lt_succ_of_lt hk))
    cases hg : ops[n]? with
    | none => simp [findCtm, hg, hrec]
    | some op =>
      cases op with
      | setTransform m => exact absurd hg (h n m (Nat.lt_succ_self n))
      | paintImage name => simp [findCtm, hg, hrec]
      | other => simp [findCtm, hg, hrec]

/-- The backward search returns the transform of the nearest preceding
set-transform operator: if index `k < j` holds `setTransform m` and no index
strictly between `k` and `j` holds a set-transform, the search yields `m`. -/
theorem findCtm_nearest (ops : List PdfOp) (k j : Nat) (m : Mat)
    (hkj : k < j) (hk : ops[k]? = some (PdfOp.setTransform m))
    (hno : ∀ k' m', k < k' → k' < j → ops[k']? ≠ some (PdfOp.setTransform m')) :
    findCtm ops j = some m := by
  induction j with
  | zero => exact absurd hkj (Nat.not_lt_zero k)
  | succ n ih =>
    by_cases hkn : k = n
    · subst hkn
      simp [findCtm, hk]
    · have hklt : k < n := Nat.lt_of_le_of_ne (Nat.le_of_lt_succ hkj) hkn
      have hrec : findCtm ops n = some m :=
        ih hklt (fun k' m' h1 h2 => hno k' m' h1 (Nat.lt_succ_of_lt h2))
      cases hg : ops[n]? with
      | none => simp [findCtm, hg, hrec]
      | some op =>
        cases op with
        | setTransform m' => exact absurd hg (hno n m' hklt (Nat.lt_succ_self n))
        | paintImage name => simp [findCtm, hg, hrec]
        | other => simp [findCtm, hg, hrec]

/-- C1: the spec's invariant says every extracted element's `y` is converted
into the top-left-origin frame, text exactly like images.  Evaluating the
code at a text run with transform `[12, 0, 0, 12, 100, 700]` on a page of
height 792 shows the text map stores `y = 700` — the raw bottom-up
`transform[5]`, not the canonical 92 — while the image path converts its ctm
(`792 - (700 + 20)`), and the `/api/pdf-to-json` variant converts text as
well.  The text branch of `/pdfToJson` contradicts both the invariant and the
`height - y` inversion its own reconstructor applies. -/
theorem extract_text_y_unconverted :
    (extractTextElement ⟨"Hello", ⟨12, 0, 0, 12, 100, 700⟩, 50, 12, "Helvetica"⟩).y = 700 ∧
    toCanonicalY 700 792 = 92 ∧
    (700 : ℝ) ≠ 92 ∧
    (placeImage 40 20 792 (some ⟨12, 0, 0, 12, 100, 700⟩)).y = toCanonicalY (700 + 20) 792 ∧
    apiTextY 792 ⟨"Hello", ⟨12, 0, 0, 12, 100, 700⟩, 50, 12, "Helvetica"⟩ =
      toCanonicalY 700 792 := by
  refine ⟨rfl, by norm_num [toCanonicalY], by norm_num, ?_, by norm_num [apiTextY, toCanonicalY]⟩
  simp only [placeImage, toCanonicalY]

/-- C2: the coordinate conversions are exact inverses: for all `y` and all
`h > 0`, `fromCanonicalY (toCanonicalY y h) h 0` equals `y` within the
tolerance `1e-6`. -/
theorem coordinate_inverse_law (y h : ℝ) (hh : 0 < h) :
    |fromCanonicalY (toCanonicalY y h) h 0 - y| ≤ 1 / 1000000 := by
  have hz : fromCanonicalY (toCanonicalY y h) h 0 = y := by
    simp [fromCanonicalY, toCanonicalY]
  rw [hz, sub_self, abs_zero]
  norm_num

/-- Witness for C2 at `y = 3`, `h = 10`. -/
theorem coordinate_inverse_law_witness :
    (0 : ℝ) < 10 ∧ |fromCanonicalY (toCanonicalY 3 10) 10 0 - 3| ≤ 1 / 1000000 :=
  ⟨by norm_num, coordinate_inverse_law 3 10 (by norm_num)⟩

/-- C4: for an image-paint operator at index `j`, the transform applied is the
one set by the nearest preceding set-transform operator (the largest such
index below `j`); if no set-transform precedes, the image is placed at the
identity: position `(0, 0)` with its natural pixel width and height. -/
theorem image_transform_nearest_preceding (ops : List PdfOp) (j : Nat) (name : String)
    (w h H : ℝ) (hpaint : ops[j]? = some (PdfOp.paintImage name)) :
    ((∀ k m, k < j → ops[k]? ≠ some (PdfOp.setTransform m)) →
      extractImageAt ops j w h H = ⟨0, 0, w, h⟩) ∧
    (∀ k m, k < j → ops[k]? = some (PdfOp.setTransform m) →
      (∀ k' m', k < k' → k' < j → ops[k']? ≠ some (PdfOp.setTransform m')) →
      extractImageAt ops j w h H = placeImage w h H (some m)) := by
  constructor
  · intro hnone
    unfold extractImageAt
    rw [findCtm_eq_none ops j hnone]
    rfl
  · intro k m hkj hk hno
    unfold extractImageAt
    rw [findCtm_nearest ops k j m hkj hk hno]

/-- Witness for C4: a trace with no preceding set-transform places the image
at `(0, 0)` with natural dimensions `5 × 7`, and a trace whose nearest
preceding set-transform (index 0, with only a non-transform operator between)
carries `[2, 0, 0, 2, 5, 7]` places via exactly that matrix. -/
theorem image_transform_nearest_preceding_witness :
    extractImageAt [PdfOp.other, PdfOp.paintImage "im0"] 1 5 7 100 = ⟨0, 0, 5, 7⟩ ∧
    extractImageAt [PdfOp.setTransform ⟨2, 0, 0, 2, 5, 7⟩, PdfOp.other,
        PdfOp.paintImage "im1"] 2 4 6 100 =
      placeImage 4 6 100 (some ⟨2, 0, 0, 2, 5, 7⟩) := by
  constructor
  · refine (image_transform_nearest_preceding [PdfOp.other, PdfOp.paintImage "im0"]
      1 "im0" 5 7 100 rfl).1 ?_
    intro k m hk
    have hk0 : k = 0 := by omega
    subst hk0
    simp
  · refine (image_transform_nearest_preceding [PdfOp.setTransform ⟨2, 0, 0, 2, 5, 7⟩,
      PdfOp.other, PdfOp.paintImage "im1"] 2 "im1" 4 6 100 rfl).2 0 ⟨2, 0, 0, 2, 5, 7⟩
      (by omega) rfl ?_
    intro k' m' h1 h2
    have hk1 : k' = 1 := by omega
    subst hk1
    simp

/-- C5: the axis scale factors of a placement transform `[a, b, c, d, e, f]`
are `scaleX = hypot a b` and `scaleY = hypot c d`; a diagonal matrix
`[s, 0, 0, s, e, f]` with `s > 0` therefore yields scale `(s, s)`, position
taken from the translation, and a placed footprint equal to the image's
natural pixel dimensions multiplied by the scale factors. -/
theorem matrixToOrigin_scale (s e f w h H : ℝ) (hs : 0 < s) :
    scaleX ⟨s, 0, 0, s, e, f⟩ = s ∧
    scaleY ⟨s, 0, 0, s, e, f⟩ = s ∧
    (placeImage w h H (some ⟨s, 0, 0, s, e, f⟩)).x = e ∧
    (placeImage w h H (some ⟨s, 0, 0, s, e, f⟩)).width = w * s ∧
    (placeImage w h H (some ⟨s, 0, 0, s, e, f⟩)).height = h * s ∧
    (∀ m : Mat, (placeImage w h H (some m)).width = w * hypot m.a m.b ∧
      (placeImage w h H (some m)).height = h * hypot m.c m.d) := by
  have hx : scaleX ⟨s, 0, 0, s, e, f⟩ = s := by
    unfold scaleX hypot
    rw [show s ^ 2 + (0 : ℝ) ^ 2 = s ^ 2 by ring, Real.sqrt_sq hs.le]
  have hy : scaleY ⟨s, 0, 0, s, e, f⟩ = s := by
    unfold scaleY hypot
    rw [show (0 : ℝ) ^ 2 + s ^ 2 = s ^ 2 by ring, Real.sqrt_sq hs.le]
  refine ⟨hx, hy, rfl, ?_, ?_, fun m => ⟨rfl, rfl⟩⟩
  · show w * scaleX ⟨s, 0, 0, s, e, f⟩ = w * s
    rw [hx]
  · show h * scaleY ⟨s, 0, 0, s, e, f⟩ = h * s
    rw [hy]

/-- Witness for C5 at `s = 3`, translation `(1, 2)`, natural size `10 × 20`,
page height 100. -/
theorem matrixToOrigin_scale_witness :
    scaleX ⟨3, 0, 0, 3, 1, 2⟩ = 3 ∧
    scaleY ⟨3, 0, 0, 3, 1, 2⟩ = 3 ∧
    (placeImage 10 20 100 (some ⟨3, 0, 0, 3, 1, 2⟩)).x = 1 ∧
    (placeImage 10 20 100 (some ⟨3, 0, 0, 3, 1, 2⟩)).width = 10 * 3 ∧
    (placeImage 10 20 100 (some ⟨3, 0, 0, 3, 1, 2⟩)).height = 20 * 3 := by
  have h := matrixToOrigin_scale 3 1 2 10 20 100 (by norm_num)
  exact ⟨h.1, h.2.1, h.2.2.1, h.2.2.2.1, h.2.2.2.2.1⟩

/-- Inserting an element that compares `≤ 0` against every list member places
it at the front. -/
theorem sortInsert_front {α : Type} (cmp : α → α → Int) (x : α) (l : List α)
    (h : ∀ y ∈ l, cmp x y ≤ 0) : sortInsert cmp x l = x :: l := by
  cases l with
  | nil => rfl
  | cons y ys => simp [sortInsert, h y (List.mem_cons_self y ys)]

/-- Inserting an element that compares `> 0` against every member of the first
block skips past that block. -/
theorem sortInsert_append {α : Type} (cmp : α → α → Int) (x : α) (l₁ l₂ : List α)
    (h : ∀ y ∈ l₁, ¬ cmp x y ≤ 0) :
    sortInsert cmp x (l₁ ++ l₂) = l₁ ++ sortInsert cmp x l₂ := by
  induction l₁ with
  | nil => rfl
  | cons y ys ih =>
    have hy := h y (List.mem_cons_self y ys)
    simp only [List.cons_append, sortInsert, if_neg hy, List.append_eq]
    rw [ih (fun z hz => h z (List.mem_cons_of_mem y hz))]

/-- Membership is preserved by stable insertion. -/
theorem mem_sortInsert {α : Type} (cmp : α → α → Int) (x z : α) (l : List α) :
    z ∈ sortInsert cmp x l ↔ z = x ∨ z ∈ l := by
  induction l with
  | nil => simp [sortInsert]
  | cons y ys ih =>
    by_cases hc : cmp x y ≤ 0
    · simp [sortInsert, hc]
    · simp [sortInsert, hc, ih]
      tauto

/-- The sort model permutes its input: membership is unchanged. -/
theorem mem_jsArraySort {α : Type} (cmp : α → α → Int) (z : α) (l : List α) :
    z ∈ jsArraySort cmp l ↔ z ∈ l := by
  induction l with
  | nil => simp [jsArraySort]
  | cons x xs ih => simp [jsArraySort, mem_sortInsert, ih]

/-- C3: for every page given to the reconstructor whose elements are text or
image elements, the sort issued before painting is a stable partition: all
image elements first (in their original relative order) followed by all text
elements (in their original relative order). -/
theorem reconstruction_paint_order (els : List RElement)
    (h : ∀ e ∈ els, e.type = "image" ∨ e.type = "text") :
    sortedElements els =
      els.filter (fun el => el.type == "image") ++
        els.filter (fun el => el.type == "text") := by
  unfold sortedElements
  revert h
  induction els with
  | nil => intro h; rfl
  | cons e rest ih =>
    intro h
    have hrest : ∀ x ∈ rest, x.type = "image" ∨ x.type = "text" :=
      fun x hx => h x (List.mem_cons_of_mem e hx)
    have hI : ∀ y ∈ rest.filter (fun el => el.type == "image"), y.type = "image" := by
      intro y hy
      have := List.of_mem_filter hy
      simpa using this
    have hT : ∀ y ∈ rest.filter (fun el => el.type == "text"), y.type = "text" := by
      intro y hy
      have := List.of_mem_filter hy
      simpa using this
    have hstep : jsArraySort cmpElems (e :: rest) =
        sortInsert cmpElems e (jsArraySort cmpElems rest) := rfl
    rcases h e (List.mem_cons_self e rest) with he | he
    · have hall : ∀ y ∈ rest.filter (fun el => el.type == "image") ++
          rest.filter (fun el => el.type == "text"), cmpElems e y ≤ 0 := by
        intro y hy
        rcases List.mem_append.mp hy with hyI | hyT
        · have hty := hI y hyI
          simp [cmpElems, he, hty]
        · have hty := hT y hyT
          simp [cmpElems, he, hty]
      rw [hstep, ih hrest, sortInsert_front cmpElems e _ hall]
      simp [List.filter_cons, he]
    · have hallI : ∀ y ∈ rest.filter (fun el => el.type == "image"),
          ¬ cmpElems e y ≤ 0 := by
        intro y hy
        have hty := hI y hy
        simp [cmpElems, he, hty]
      have hallT : ∀ y ∈ rest.filter (fun el => el.type == "text"),
          cmpElems e y ≤ 0 := by
        intro y hy
        have hty := hT y hy
        simp [cmpElems, he, hty]
      rw [hstep, ih hrest, sortInsert_append cmpElems e _ _ hallI,
        sortInsert_front cmpElems e _ hallT]
      simp [List.filter_cons, he]

/-- Witness for C3 at the spec's example page `[text A, image B, text C]`:
paint order is `[B, A, C]`. -/
theorem reconstruction_paint_order_witness :
    sortedElements [elemA, elemB, elemC] = [elemB, elemA, elemC] := by
  rw [reconstruction_paint_order [elemA, elemB, elemC] (by decide)]
  decide

/-- C8: if a page handed to `/jsonToPdf` contains an image element whose
bytes are corrupt (the embed collaborator throws, modelled as `none`), the
failure is caught: that element produces no drawing call, every element whose
own placement succeeds — in particular every text element — is still placed
on the page, and the handler still answers with success status. -/
theorem corrupt_image_skipped {α : Type} (embed : String → Option α) (w H : ℚ)
    (els : List RElement) (c : RElement) (s : String)
    (hc : c ∈ els) (hty : c.type = "image") (hsrc : c.src = some s)
    (hbad : embed s = none) :
    drawElement embed H c = none ∧
    (∀ e op, e ∈ els → drawElement embed H e = some op →
      op ∈ (renderPage embed ⟨w, H, els⟩).ops) ∧
    (∀ e, e ∈ els → e.type = "text" →
      DrawOp.text e.text e.x (H - e.y) (textSize e.fontSize) ∈
        (renderPage embed ⟨w, H, els⟩).ops) ∧
    isSuccess (jsonToPdf embed (PagesField.array [⟨w, H, els⟩])) = true := by
  have hskip : drawElement embed H c = none := by
    simp [drawElement, hty, hsrc, hbad]
  have hplace : ∀ e op, e ∈ els → drawElement embed H e = some op →
      op ∈ (renderPage embed ⟨w, H, els⟩).ops := by
    intro e op he hdraw
    have hmem : e ∈ sortedElements els := by
      unfold sortedElements
      exact (mem_jsArraySort cmpElems e els).mpr he
    show op ∈ (sortedElements els).filterMap (drawElement embed H)
    exact List.mem_filterMap.mpr ⟨e, hmem, hdraw⟩
  refine ⟨hskip, hplace, ?_, rfl⟩
  intro e he hty'
  exact hplace e _ he (by simp [drawElement, hty'])

/-- Witness for C8: on the page `[elemA (text), elemB (image)]` with an embed
collaborator that fails on everything, the corrupt image is skipped, the text
element is still drawn, and the handler reports success. -/
theorem corrupt_image_skipped_witness :
    drawElement embedNoneU 100 elemB = none ∧
    DrawOp.text "A" 0 100 12 ∈ (renderPage embedNoneU ⟨50, 100, [elemA, elemB]⟩).ops ∧
    isSuccess (jsonToPdf embedNoneU (PagesField.array [⟨50, 100, [elemA, elemB]⟩])) = true := by
  have h := corrupt_image_skipped embedNoneU 50 100 [elemA, elemB] elemB
    "data:image/png;base64,AAAA" (by decide) (by decide) rfl rfl
  refine ⟨h.1, ?_, h.2.2.2⟩
  exact h.2.1 elemA (DrawOp.text "A" 0 100 12) (by decide)
    (by simp [drawElement, elemA, textSize])

/-- C10: when a text element's `fontSize` is absent or zero (falsy), the text
is drawn at the default size 12; a present nonzero `fontSize` is used as-is,
and every text element is drawn with exactly `textSize` of its field. -/
theorem text_fontSize_default (q : ℚ) (hq : q ≠ 0) :
    textSize none = 12 ∧ textSize (some 0) = 12 ∧ textSize (some q) = q ∧
    (∀ (α : Type) (embed : String → Option α) (H : ℚ) (e : RElement), e.type = "text" →
      drawElement embed H e =
        some (DrawOp.text e.text e.x (H - e.y) (textSize e.fontSize))) := by
  refine ⟨rfl, by simp [textSize], by simp [textSize, hq], ?_⟩
  intro α embed H e he
  simp [drawElement, he]

/-- Witness for C10 at `fontSize = 7` and the text element `elemA`. -/
theorem text_fontSize_default_witness :
    textSize none = 12 ∧ textSize (some 0) = 12 ∧ textSize (some 7) = 7 ∧
    drawElement embedNoneU 100 elemA =
      some (DrawOp.text elemA.text elemA.x (100 - elemA.y) (textSize elemA.fontSize)) := by
  have h := text_fontSize_default 7 (by norm_num)
  exact ⟨h.1, h.2.1, h.2.2.1, h.2.2.2 Unit embedNoneU 100 elemA rfl⟩

/-- C7 counterexample: the claim says every reconstruct request with a missing
or non-array `pages` gets a 4xx user error and never crashes, but the
`app.js` `/jsonToPdf` handler on the body `{}` (no `pages` field) throws a
TypeError instead of responding. -/
theorem appJs_missing_pages_throws :
    appJs_jsonToPdf PagesField.absent =
      AppJsOutcome.thrown "TypeError: pages is not iterable" := rfl

/-- C7 amended: the part_000 `/jsonToPdf` handlers return the 400 user error
before any document construction for every body whose `pages` is absent,
null, or a non-array, while the app.js handler performs no validation and
throws on such bodies. -/
theorem jsonToPdf_rejects_invalid_pages (α : Type) (embed : String → Option α) :
    jsonToPdf embed PagesField.absent =
      JsonToPdfResult.badRequest "Invalid JSON format. Expected \x7b pages: [...] \x7d" ∧
    jsonToPdf embed PagesField.nullVal =
      JsonToPdfResult.badRequest "Invalid JSON format. Expected \x7b pages: [...] \x7d" ∧
    jsonToPdf embed PagesField.nonArray =
      JsonToPdfResult.badRequest "Invalid JSON format. Expected \x7b pages: [...] \x7d" ∧
    appJs_jsonToPdf PagesField.nullVal =
      AppJsOutcome.thrown "TypeError: pages is not iterable" ∧
    appJs_jsonToPdf PagesField.nonArray =
      AppJsOutcome.thrown "TypeError: pages is not iterable" :=
  ⟨rfl, rfl, rfl, rfl, rfl⟩

/-- C9 counterexample: the claim says the staged upload file is removed on
every failure path, but the `app.js` `/pdfToJson` handler leaves the file on
disk when pdf.js fails to parse the upload. -/
theorem appJs_parse_failure_leaks_file :
    ExtractOutcome.fileRemoved
      (pdfToJson_appjs (Except.error "Invalid PDF structure" : Except String (List RPage))) =
      false := rfl

/-- C9 amended: the disk-staging part_000 handlers remove the transient upload
file on the success path and on every failure path; the app.js handler removes
it only on success and leaks it whenever the pdf.js work fails. -/
theorem extract_tmpfile_cleanup (α : Type) (parse : Except String α) :
    (pdfToJson_part000 parse).fileRemoved = true ∧
    (∀ v : α, (pdfToJson_appjs (Except.ok v : Except String α)).fileRemoved = true) ∧
    (∀ e : String, (pdfToJson_appjs (Except.error e : Except String α)).fileRemoved = false) := by
  refine ⟨?_, fun v => rfl, fun e => rfl⟩
  cases parse with
  | ok v => rfl
  | error e => rfl

/-- A head match survives appending to the right. -/
theorem strStartsWith_append (l₁ l₂ pat : List Char)
    (h : strStartsWith l₁ pat = true) : strStartsWith (l₁ ++ l₂) pat = true := by
  induction pat generalizing l₁ with
  | nil => cases l₁ <;> simp [strStartsWith]
  | cons p ps ih =>
    cases l₁ with
    | nil => simp [strStartsWith] at h
    | cons c cs =>
      simp only [List.cons_append, strStartsWith, Bool.and_eq_true] at h ⊢
      exact ⟨h.1, ih cs h.2⟩

/-- A substring occurrence survives appending to the right. -/
theorem strIncludes_append_left (l₁ l₂ pat : List Char)
    (h : strIncludes l₁ pat = true) : strIncludes (l₁ ++ l₂) pat = true := by
  induction l₁ with
  | nil =>
    have hp : pat = [] := by
      cases pat with
      | nil => rfl
      | cons p ps => simp [strIncludes] at h
    subst hp
    cases l₂ with
    | nil => rfl
    | cons c cs => simp [strIncludes, strStartsWith]
  | cons c cs ih =>
    simp only [List.cons_append, strIncludes, Bool.or_eq_true] at h ⊢
    rcases h with h | h
    · left
      have := strStartsWith_append (c :: cs) l₂ pat h
      simpa using this
    · right
      exact ih h

/-- C6 counterexample: the claim says the reconstructor derives the image
format from the byte content rather than the declared label, but in the
`/jsonToPdf` path the same payload is embedded as PNG or as JPEG depending
only on the label written in the data URI. -/
theorem label_trusted_counterexample :
    chooseEmbed (dataURI "png".toList "AAAA".toList) = EmbedKind.png ∧
    chooseEmbed (dataURI "jpeg".toList "AAAA".toList) = EmbedKind.jpg := by
  constructor <;> decide

/-- C6 amended: in the `/jsonToPdf` path the embed format is chosen from the
`src` string's declared label — any data URI labelled `png` is embedded as
PNG regardless of its payload bytes; only the `/api/json-to-pdf` path
determines the format by content inspection (sharp's magic-byte metadata),
with the generic raster embed as fallback when detection is inconclusive. -/
theorem image_format_detection (payload : List Char) (bytes : List Nat) :
    chooseEmbed (dataURI "png".toList payload) = EmbedKind.png ∧
    (bytes.take 3 = [255, 216, 255] → chooseEmbed_api bytes = ApiEmbed.jpg) ∧
    (bytes.take 4 = [137, 80, 78, 71] → chooseEmbed_api bytes = ApiEmbed.png) ∧
    (bytes.take 4 ≠ [137, 80, 78, 71] → bytes.take 3 ≠ [255, 216, 255] →
      chooseEmbed_api bytes = ApiEmbed.generic) := by
  refine ⟨?_, ?_, ?_, ?_⟩
  · show chooseEmbed ("data:image/png;base64,".toList ++ payload) = EmbedKind.png
    have hstart : strIncludes "data:image/png;base64,".toList "image/png".toList = true := by
      decide
    have hincl : strIncludes ("data:image/png;base64,".toList ++ payload)
        "image/png".toList = true :=
      strIncludes_append_left _ _ _ hstart
    unfold chooseEmbed
    rw [hincl]
    simp
  · intro h3
    have h4 : bytes.take 4 ≠ [137, 80, 78, 71] := by
      intro h4
      have ht := List.take_take 3 4 bytes
      rw [h4] at ht
      have : bytes.take 3 = [137, 80, 78] := by simpa using ht.symm
      rw [h3] at this
      simp at this
    simp [chooseEmbed_api, sharpFormat, h3, h4]
  · intro h4
    simp [chooseEmbed_api, sharpFormat, h4]
  · intro h4 h3
    simp [chooseEmbed_api, sharpFormat, h4, h3]

/-- Witness for C6 at a `png`-labelled URI and at concrete JPEG, PNG and
unrecognizable byte sequences. -/
theorem image_format_detection_witness :
    chooseEmbed (dataURI "png".toList "QUJD".toList) = EmbedKind.png ∧
    chooseEmbed_api [255, 216, 255, 224] = ApiEmbed.jpg ∧
    chooseEmbed_api [137, 80, 78, 71, 13] = ApiEmbed.png ∧
    chooseEmbed_api [1, 2, 3] = ApiEmbed.generic :=
  ⟨(image_format_detection "QUJD".toList []).1,
   (image_format_detection [] [255, 216, 255, 224]).2.1 (by decide),
   (image_format_detection [] [137, 80, 78, 71, 13]).2.2.1 (by decide),
   (image_format_detection [] [1, 2, 3]).2.2.2 (by decide) (by decide)⟩
